import Mathlib

/-
Verification of app/network_coding_for_transport/multihop_topo.py.

The script is embedded shallowly: every backend interaction (mininet /
containernet calls, ovs commands, container management, shell commands)
is recorded as an event of type `Ev`, and each translated function
returns the list of events it emits together with its Python result
(`Except PyErr _` models Python exceptions).  Backend failures during
topology assembly are modelled by a fault schedule `faults : Nat → Bool`
indexed by the assembly backend-call counter; calls outside the assembly
phase are modelled as succeeding (the claims under study only inject
faults during assembly).  `ovs-vsctl get Interface _ ofport` is modelled
by an uninterpreted resolver `ofport : String → String`.
-/

namespace Multihop

/-- Python exception values that the script can raise or propagate. -/
inductive PyErr where
  | runtimeError (msg : String)
  | typeError (msg : String)
  | indexError
deriving DecidableEq

/-- An OpenFlow rule as installed by `ovs-ofctl add-flow s{sw}
"{proto},in_port={in_port},actions=output={out_port}"`. -/
structure FlowRule where
  sw : Nat
  proto : String
  in_port : String
  out_port : String
deriving DecidableEq

/-- A host of the emulated network: its name and its IP address. -/
structure Host where
  name : String
  ip : String
deriving DecidableEq

/-- Events: one per externally visible backend call made by the script. -/
inductive Ev where
  | configIpv6 (action : String)
  | addController (name : String)
  | addDockerHost (name ip : String)
  | addSwitch (name : String)
  | addLinkHS (sw host : String) (delay : String)
  | addLinkSS (sw prev : String) (delay : String) (loss : Nat)
  | errorLog
  | netStart
  | netStop
  | mgrStop
  | delFlows (sw : Nat)
  | addFlow (r : FlowRule)
  | cksumOff (ifce : String)
  | addContainer (name host cmd : String) (wait : Nat)
  | removeContainer (name : String)
  | sleep (secs : Nat)
  | shellCmd (host cmd : String)
deriving DecidableEq

/-- Name of host `i` (0-based loop index): `"h%s" % (i + 1)`. -/
def hostName (i : Nat) : String := "h" ++ toString (i + 1)

/-- IP of host `i`: `"10.0.0.%s" % (i + 1)`. -/
def hostIp (i : Nat) : String := "10.0.0." ++ toString (i + 1)

/-- Name of switch `i`: `"s%s" % (i + 1)`. -/
def swName (i : Nat) : String := "s" ++ toString (i + 1)

/-- The host record created at loop index `i` of `create_topology`. -/
def mkHost (i : Nat) : Host := ⟨hostName i, hostIp i⟩

/-- The host/switch/link creation loop of `create_topology`, for the
remaining loop indices `l`, previous switch `lastSw` and assembly call
counter `c`.  Each backend call consults the fault schedule; a faulting
call raises, which aborts the loop (`none`).  Events are the calls that
completed. -/
def buildChain (faults : Nat → Bool) : List Nat → Option Nat → Nat →
    Option (List Host) × List Ev
  | [], _, _ => (some [], [])
  | i :: rest, lastSw, c =>
    if faults c then (none, []) else
    let e1 := Ev.addDockerHost (hostName i) (hostIp i)
    if faults (c + 1) then (none, [e1]) else
    let e2 := Ev.addSwitch (swName i)
    if faults (c + 2) then (none, [e1, e2]) else
    let e3 := Ev.addLinkHS (swName i) (hostName i) "20ms"
    match lastSw with
    | some p =>
      if faults (c + 3) then (none, [e1, e2, e3]) else
      let e4 := Ev.addLinkSS (swName i) (swName p) "20ms" 20
      match buildChain faults rest (some i) (c + 4) with
      | (none, evs) => (none, e1 :: e2 :: e3 :: e4 :: evs)
      | (some hs, evs) => (some (mkHost i :: hs), e1 :: e2 :: e3 :: e4 :: evs)
    | none =>
      match buildChain faults rest (some i) (c + 3) with
      | (none, evs) => (none, e1 :: e2 :: e3 :: evs)
      | (some hs, evs) => (some (mkHost i :: hs), e1 :: e2 :: e3 :: evs)

/-- `create_topology(net, host_num)`.  `host_num < 5` raises
`RuntimeError("Require at least 5 hosts")` before any backend call.
Any backend error inside the `try` is caught: the error is logged,
`net.stop()` is called, and the function falls through returning `None`
(modelled as `.ok none`).  On success it returns the host list. -/
def create_topology (faults : Nat → Bool) (host_num : Nat) :
    Except PyErr (Option (List Host)) × List Ev :=
  if host_num < 5 then
    (.error (.runtimeError "Require at least 5 hosts"), [])
  else if faults 0 then
    (.ok none, [Ev.errorLog, Ev.netStop])
  else
    match buildChain faults (List.range host_num) none 1 with
    | (none, evs) =>
      (.ok none, Ev.addController "c0" :: (evs ++ [Ev.errorLog, Ev.netStop]))
    | (some hs, evs) =>
      (.ok (some hs), Ev.addController "c0" :: evs)

/-- The fault-free schedule. -/
def noFaults : Nat → Bool := fun _ => false

/-- The events emitted by the fault-free creation loop: for each index,
host, switch and a 20ms lossless host-switch link, plus - whenever a
previous switch exists - a 20ms, 20% loss switch-switch link. -/
def chainTrace : Option Nat → List Nat → List Ev
  | _, [] => []
  | none, i :: rest =>
    Ev.addDockerHost (hostName i) (hostIp i) :: Ev.addSwitch (swName i) ::
      Ev.addLinkHS (swName i) (hostName i) "20ms" :: chainTrace (some i) rest
  | some p, i :: rest =>
    Ev.addDockerHost (hostName i) (hostIp i) :: Ev.addSwitch (swName i) ::
      Ev.addLinkHS (swName i) (hostName i) "20ms" ::
      Ev.addLinkSS (swName i) (swName p) "20ms" 20 :: chainTrace (some i) rest

theorem buildChain_noFaults (l : List Nat) :
    ∀ lastSw c, buildChain noFaults l lastSw c =
      (some (l.map mkHost), chainTrace lastSw l) := by
  induction l with
  | nil => intro lastSw c; cases lastSw <;> simp [buildChain, chainTrace]
  | cons i rest ih =>
    intro lastSw c
    cases lastSw <;> simp [buildChain, noFaults, chainTrace, ih]

theorem create_topology_noFaults (host_num : Nat) (h : 5 ≤ host_num) :
    create_topology noFaults host_num =
      (.ok (some ((List.range host_num).map mkHost)),
        Ev.addController "c0" :: chainTrace none (List.range host_num)) := by
  simp [create_topology, Nat.not_lt.mpr h, noFaults, buildChain_noFaults]

/-- Recognizer for host-creation events. -/
def isHostEv : Ev → Bool
  | .addDockerHost _ _ => true
  | _ => false

/-- Recognizer for switch-creation events. -/
def isSwitchEv : Ev → Bool
  | .addSwitch _ => true
  | _ => false

/-- Recognizer for lossless 20ms host-switch link events. -/
def isHSLinkEv : Ev → Bool
  | .addLinkHS _ _ d => d == "20ms"
  | _ => false

/-- Recognizer for 20ms, 20% loss switch-switch link events. -/
def isSSLinkEv : Ev → Bool
  | .addLinkSS _ _ d l => d == "20ms" && l == 20
  | _ => false

/-- Recognizer for `net.stop()` events. -/
def isNetStop : Ev → Bool
  | .netStop => true
  | _ => false

theorem chainTrace_count_host (l : List Nat) :
    ∀ lastSw, (chainTrace lastSw l).countP isHostEv = l.length := by
  induction l with
  | nil => intro lastSw; cases lastSw <;> simp [chainTrace]
  | cons i rest ih =>
    intro lastSw
    cases lastSw <;>
      simp [chainTrace, List.countP_cons, isHostEv, isSwitchEv, ih]

theorem chainTrace_count_switch (l : List Nat) :
    ∀ lastSw, (chainTrace lastSw l).countP isSwitchEv = l.length := by
  induction l with
  | nil => intro lastSw; cases lastSw <;> simp [chainTrace]
  | cons i rest ih =>
    intro lastSw
    cases lastSw <;>
      simp [chainTrace, List.countP_cons, isHostEv, isSwitchEv, ih]

theorem chainTrace_count_hslink (l : List Nat) :
    ∀ lastSw, (chainTrace lastSw l).countP isHSLinkEv = l.length := by
  induction l with
  | nil => intro lastSw; cases lastSw <;> simp [chainTrace]
  | cons i rest ih =>
    intro lastSw
    cases lastSw <;>
      simp [chainTrace, List.countP_cons, isHSLinkEv, ih]

theorem chainTrace_count_sslink (l : List Nat) :
    ∀ lastSw, (chainTrace lastSw l).countP isSSLinkEv =
      (match lastSw with | some _ => l.length | none => l.length - 1) := by
  induction l with
  | nil => intro lastSw; cases lastSw <;> simp [chainTrace]
  | cons i rest ih =>
    intro lastSw
    cases lastSw <;>
      simp [chainTrace, List.countP_cons, isSSLinkEv, ih]

theorem chainTrace_mem_host (l : List Nat) :
    ∀ lastSw i, i ∈ l →
      Ev.addDockerHost (hostName i) (hostIp i) ∈ chainTrace lastSw l := by
  induction l with
  | nil => intro lastSw i h; cases h
  | cons j rest ih =>
    intro lastSw i h
    rcases List.mem_cons.mp h with h | h
    · subst h; cases lastSw <;> simp [chainTrace]
    · cases lastSw <;> simp [chainTrace] <;> exact Or.inr (ih _ i h)

/-- C3: for `host_num < 5` the build raises the configuration error
("Require at least 5 hosts") with an empty backend trace - no
controller, host, switch or link call is made - and for `host_num ≥ 5`
this validation error is never raised: the build returns normally for
every fault schedule. -/
theorem create_topology_validation (faults : Nat → Bool) (host_num : Nat) :
    (host_num < 5 →
      create_topology faults host_num =
        (.error (.runtimeError "Require at least 5 hosts"), [])) ∧
    (5 ≤ host_num →
      ∃ r, (create_topology faults host_num).1 = .ok r) := by
  constructor
  · intro h
    simp [create_topology, h]
  · intro h
    by_cases h0 : faults 0
    · exact ⟨none, by simp [create_topology, Nat.not_lt.mpr h, h0]⟩
    · rcases hb : buildChain faults (List.range host_num) none 1 with ⟨o, evs⟩
      cases o with
      | none => exact ⟨none, by simp [create_topology, Nat.not_lt.mpr h, h0, hb]⟩
      | some hs =>
        exact ⟨some hs, by simp [create_topology, Nat.not_lt.mpr h, h0, hb]⟩

/-- Witness for C3 at `host_num = 3` (validation fires, empty trace) and
`host_num = 7` (no validation error, for an arbitrary fault schedule). -/
theorem create_topology_validation_witness :
    create_topology noFaults 3 =
        (.error (.runtimeError "Require at least 5 hosts"), []) ∧
    ∃ r, (create_topology noFaults 7).1 = .ok r :=
  ⟨(create_topology_validation noFaults 3).1 (by decide),
   (create_topology_validation noFaults 7).2 (by decide)⟩

/-- C4: for every `host_num ≥ 5` the fault-free assembly returns exactly
`host_num` hosts, and its backend trace holds exactly `host_num`
host-creation events, `host_num` switch-creation events, `host_num`
lossless 20ms host-switch links and `host_num - 1` 20ms, 20% loss
switch-switch links; host `i` is created bound to IP `10.0.0.(i+1)`. -/
theorem topology_shape (host_num : Nat) (h : 5 ≤ host_num) :
    ∃ hs tr, create_topology noFaults host_num = (.ok (some hs), tr) ∧
      hs.length = host_num ∧
      (∀ i, i < host_num → hs[i]? = some ⟨"h" ++ toString (i + 1),
        "10.0.0." ++ toString (i + 1)⟩) ∧
      tr.countP isHostEv = host_num ∧
      tr.countP isSwitchEv = host_num ∧
      tr.countP isHSLinkEv = host_num ∧
      tr.countP isSSLinkEv = host_num - 1 ∧
      (∀ i, i < host_num →
        Ev.addDockerHost ("h" ++ toString (i + 1))
          ("10.0.0." ++ toString (i + 1)) ∈ tr) := by
  refine ⟨(List.range host_num).map mkHost,
    Ev.addController "c0" :: chainTrace none (List.range host_num),
    create_topology_noFaults host_num h, by simp, ?_, ?_, ?_, ?_, ?_, ?_⟩
  · intro i hi
    simp [List.getElem?_map, List.getElem?_range hi, mkHost, hostName, hostIp]
  · simp [List.countP_cons, isHostEv, chainTrace_count_host]
  · simp [List.countP_cons, isSwitchEv, chainTrace_count_switch]
  · simp [List.countP_cons, isHSLinkEv, chainTrace_count_hslink]
  · simp [List.countP_cons, isSSLinkEv, chainTrace_count_sslink]
  · intro i hi
    exact List.mem_cons_of_mem _
      (chainTrace_mem_host (List.range host_num) none i (List.mem_range.mpr hi))

/-- Witness for C4 at `host_num = 5`: the shape facts hold concretely. -/
theorem topology_shape_witness :
    ∃ hs tr, create_topology noFaults 5 = (.ok (some hs), tr) ∧
      hs.length = 5 ∧
      (∀ i, i < 5 → hs[i]? = some ⟨"h" ++ toString (i + 1),
        "10.0.0." ++ toString (i + 1)⟩) ∧
      tr.countP isHostEv = 5 ∧
      tr.countP isSwitchEv = 5 ∧
      tr.countP isHSLinkEv = 5 ∧
      tr.countP isSSLinkEv = 5 - 1 ∧
      (∀ i, i < 5 →
        Ev.addDockerHost ("h" ++ toString (i + 1))
          ("10.0.0." ++ toString (i + 1)) ∈ tr) :=
  topology_shape 5 (by decide)

/-- Interface name `"s{i+1}-h{i+1}"` (switch-to-host port). -/
def ifceHS (i : Nat) : String :=
  "s" ++ toString (i + 1) ++ "-h" ++ toString (i + 1)

/-- Interface name `"s{i+1}-s{i+2}"` (upstream switch port). -/
def ifceUp (i : Nat) : String :=
  "s" ++ toString (i + 1) ++ "-s" ++ toString (i + 2)

/-- Interface name `"s{i+1}-s{i}"` (downstream switch port). -/
def ifceDown (i : Nat) : String :=
  "s" ++ toString (i + 1) ++ "-s" ++ toString i

/-- Forward rule installed on `s{i+1}`: host traffic out the upstream
switch port, for the `udp` protocol. -/
def fwdRule (ofport : String → String) (i : Nat) : FlowRule :=
  ⟨i + 1, "udp", ofport (ifceHS i), ofport (ifceUp i)⟩

/-- Backward rule installed on `s{i+1}` (only for `i ≠ 0`): traffic from
the downstream switch out the local host port. -/
def bwdRule (ofport : String → String) (i : Nat) : FlowRule :=
  ⟨i + 1, "udp", ofport (ifceDown i), ofport (ifceHS i)⟩

/-- Commands issued by one iteration of the `add_ovs_flows` loop. -/
def ovsStep (ofport : String → String) (i : Nat) : List Ev :=
  [Ev.delFlows (i + 1), Ev.addFlow (fwdRule ofport i)] ++
    (if i = 0 then [] else [Ev.addFlow (bwdRule ofport i)])

/-- Commands issued by the `add_ovs_flows` loop over `range m`. -/
def ovsTrace (ofport : String → String) (m : Nat) : List Ev :=
  (List.range m).flatMap (ovsStep ofport)

/-- `add_ovs_flows(net, switch_num)`: the loop runs `i` over
`range(switch_num - 1)`; per `i` it flushes `s{i+1}` then installs the
forward rule, plus the backward rule when `i ≠ 0`. -/
def add_ovs_flows_trace (ofport : String → String) (switch_num : Nat) :
    List Ev :=
  ovsTrace ofport (switch_num - 1)

/-- OVS flow-table semantics of a single command event. -/
def applyFlowEv (tbl : List FlowRule) : Ev → List FlowRule
  | Ev.delFlows sw => tbl.filter (fun r => r.sw != sw)
  | Ev.addFlow r => tbl ++ [r]
  | _ => tbl

/-- Effect of `add_ovs_flows` on the installed rule tables. -/
def add_ovs_flows (ofport : String → String) (switch_num : Nat)
    (tbl : List FlowRule) : List FlowRule :=
  (add_ovs_flows_trace ofport switch_num).foldl applyFlowEv tbl

/-- Rules currently installed on switch `s{sw}`. -/
def rulesTblOn (sw : Nat) (tbl : List FlowRule) : List FlowRule :=
  tbl.filter (fun r => r.sw == sw)

/-- Number of rules currently installed on switch `s{sw}`. -/
def rulesOn (sw : Nat) (tbl : List FlowRule) : Nat :=
  (rulesTblOn sw tbl).length

/-- The rule set one loop iteration leaves on its own switch. -/
def instRules (ofport : String → String) (i : Nat) : List FlowRule :=
  fwdRule ofport i :: (if i = 0 then [] else [bwdRule ofport i])

theorem rulesTblOn_append (sw : Nat) (a b : List FlowRule) :
    rulesTblOn sw (a ++ b) = rulesTblOn sw a ++ rulesTblOn sw b := by
  simp [rulesTblOn, List.filter_append]

theorem rulesTblOn_filter_ne (sw j : Nat) (tbl : List FlowRule) :
    rulesTblOn sw (tbl.filter (fun r => r.sw != j)) =
      if sw = j then [] else rulesTblOn sw tbl := by
  induction tbl with
  | nil => cases Nat.decEq sw j <;> simp [rulesTblOn]
  | cons r rest ih =>
    by_cases hj : sw = j
    · subst hj
      simp only [rulesTblOn] at ih ⊢
      by_cases hr : r.sw = sw <;> simp [hr, List.filter_cons, ih]
    · simp only [rulesTblOn] at ih ⊢
      by_cases hr : r.sw = j
      · simp [hr, List.filter_cons, ih, if_neg hj, Ne.symm hj]
      · by_cases hrs : r.sw = sw <;>
          simp [hr, hrs, List.filter_cons, ih, if_neg hj]

/-- One pass of a loop iteration over the table. -/
theorem ovsStep_foldl (ofport : String → String) (i : Nat)
    (tbl : List FlowRule) :
    (ovsStep ofport i).foldl applyFlowEv tbl =
      tbl.filter (fun r => r.sw != (i + 1)) ++
        (instRules ofport i).reverse.reverse := by
  by_cases h : i = 0 <;> simp [ovsStep, h, applyFlowEv, instRules]

theorem ovsTrace_succ (ofport : String → String) (m : Nat) :
    ovsTrace ofport (m + 1) = ovsTrace ofport m ++ ovsStep ofport m := by
  simp [ovsTrace, List.range_succ]

theorem instRules_sw (ofport : String → String) (i : Nat) :
    rulesTblOn (i + 1) (instRules ofport i) = instRules ofport i := by
  by_cases h : i = 0 <;> simp [instRules, rulesTblOn, h, fwdRule, bwdRule]

theorem instRules_sw_ne (ofport : String → String) (i sw : Nat)
    (h : sw ≠ i + 1) : rulesTblOn sw (instRules ofport i) = [] := by
  by_cases h0 : i = 0 <;>
    simp [instRules, rulesTblOn, h0, fwdRule, bwdRule] <;> omega

/-- Switches outside the loop range never have their table touched. -/
theorem ovsTrace_untouched (ofport : String → String) (m : Nat) :
    ∀ tbl sw, (∀ i, i < m → sw ≠ i + 1) →
      rulesTblOn sw ((ovsTrace ofport m).foldl applyFlowEv tbl) =
        rulesTblOn sw tbl := by
  induction m with
  | zero => intro tbl sw _; simp [ovsTrace]
  | succ k ih =>
    intro tbl sw hsw
    rw [ovsTrace_succ, List.foldl_append, ovsStep_foldl]
    have hk : sw ≠ k + 1 := hsw k (Nat.lt_succ_self k)
    rw [rulesTblOn_append, rulesTblOn_filter_ne, if_neg hk,
      List.reverse_reverse, instRules_sw_ne ofport k sw hk,
      List.append_nil]
    exact ih tbl sw (fun i hi => hsw i (Nat.lt_succ_of_lt hi))

/-- A switch covered by the loop ends up with exactly the freshly
installed rules, whatever its previous table held. -/
theorem ovsTrace_installed (ofport : String → String) (m : Nat) :
    ∀ tbl i, i < m →
      rulesTblOn (i + 1) ((ovsTrace ofport m).foldl applyFlowEv tbl) =
        instRules ofport i := by
  induction m with
  | zero => intro tbl i hi; cases hi
  | succ k ih =>
    intro tbl i hi
    rw [ovsTrace_succ, List.foldl_append, ovsStep_foldl,
      List.reverse_reverse, rulesTblOn_append]
    by_cases hik : i = k
    · subst hik
      rw [rulesTblOn_filter_ne, if_pos rfl, instRules_sw]
      simp
    · have hik' : i < k := Nat.lt_of_le_of_ne (Nat.lt_succ_iff.mp hi) hik
      have hne : (i + 1) ≠ k + 1 := by omega
      rw [rulesTblOn_filter_ne, if_neg hne,
        instRules_sw_ne ofport k (i + 1) hne, List.append_nil]
      exact ih tbl i hik'

/-- C5 counterexample: in a 5-switch topology the loop `for i in
range(switch_num - 1)` never reaches the last switch, so switch index 4
(`s5`) has `i > 0` yet ends up with 0 installed rules, not 2. -/
theorem last_switch_unprogrammed_cex :
    rulesOn (4 + 1) (add_ovs_flows (fun s => s) 5 []) = 0 ∧
      ¬ rulesOn (4 + 1) (add_ovs_flows (fun s => s) 5 []) = 2 := by
  constructor <;> decide

/-- C5 amended: for every switch index `i` covered by the installation
loop (`i + 1 < switch_num`, i.e. every switch except the last) the
resulting table on `s{i+1}` is exactly the freshly installed rule set -
1 rule at `i = 0`, 2 rules at `i > 0` - independent of whatever rules
were previously installed (flush-before-install); the last switch is
left untouched; and re-running the installation leaves every per-switch
rule count unchanged (idempotence). -/
theorem flow_rules_counts (ofport : String → String) (switch_num : Nat)
    (tbl : List FlowRule) :
    (∀ i, i + 1 < switch_num →
      rulesTblOn (i + 1) (add_ovs_flows ofport switch_num tbl) =
        instRules ofport i) ∧
    (∀ i, i + 1 < switch_num →
      rulesOn (i + 1) (add_ovs_flows ofport switch_num tbl) =
        if i = 0 then 1 else 2) ∧
    (1 ≤ switch_num →
      rulesTblOn switch_num (add_ovs_flows ofport switch_num tbl) =
        rulesTblOn switch_num tbl) ∧
    (∀ sw, rulesOn sw
        (add_ovs_flows ofport switch_num (add_ovs_flows ofport switch_num tbl)) =
      rulesOn sw (add_ovs_flows ofport switch_num tbl)) := by
  have inst : ∀ i, i + 1 < switch_num →
      rulesTblOn (i + 1) (add_ovs_flows ofport switch_num tbl) =
        instRules ofport i := by
    intro i hi
    exact ovsTrace_installed ofport (switch_num - 1) tbl i (by omega)
  refine ⟨inst, ?_, ?_, ?_⟩
  · intro i hi
    rw [rulesOn, inst i hi]
    by_cases h : i = 0 <;> simp [instRules, h]
  · intro h1
    exact ovsTrace_untouched ofport (switch_num - 1) tbl switch_num
      (by intro i hi; omega)
  · intro sw
    by_cases h : ∃ i, i + 1 < switch_num ∧ sw = i + 1
    · rcases h with ⟨i, hi, rfl⟩
      have h2 : ∀ t, rulesTblOn (i + 1) (add_ovs_flows ofport switch_num t) =
          instRules ofport i := by
        intro t; exact ovsTrace_installed ofport (switch_num - 1) t i (by omega)
      rw [rulesOn, rulesOn, h2, h2]
    · have huntouched : ∀ t, rulesTblOn sw (add_ovs_flows ofport switch_num t) =
          rulesTblOn sw t := by
        intro t
        exact ovsTrace_untouched ofport (switch_num - 1) t sw
          (by intro i hi hsw; exact h ⟨i, by omega, hsw⟩)
      rw [rulesOn, rulesOn, huntouched]

/-- Witness for C5's amended statement at `switch_num = 5`, empty
initial table: 1 rule on the first switch, 2 on an interior switch,
untouched last switch and an idempotence instance. -/
theorem flow_rules_counts_witness :
    rulesOn 1 (add_ovs_flows (fun s => s) 5 []) = 1 ∧
    rulesOn 4 (add_ovs_flows (fun s => s) 5 []) = 2 ∧
    rulesTblOn 5 (add_ovs_flows (fun s => s) 5 []) = rulesTblOn 5 [] ∧
    rulesOn 2 (add_ovs_flows (fun s => s) 5 (add_ovs_flows (fun s => s) 5 [])) =
      rulesOn 2 (add_ovs_flows (fun s => s) 5 []) := by
  refine ⟨?_, ?_, ?_, ?_⟩
  · simpa using (flow_rules_counts (fun s => s) 5 []).2.1 0 (by decide)
  · simpa using (flow_rules_counts (fun s => s) 5 []).2.1 3 (by decide)
  · exact (flow_rules_counts (fun s => s) 5 []).2.2.1 (by decide)
  · exact (flow_rules_counts (fun s => s) 5 []).2.2.2 2

/-- Python list subscription `l[idx]`: negative indices wrap once by the
list length; anything still out of range raises `IndexError`. -/
def pyGet (l : List α) (idx : Int) : Except PyErr α :=
  let j := if idx < 0 then idx + l.length else idx
  if h : 0 ≤ j ∧ j.toNat < l.length then .ok (l.get ⟨j.toNat, h.2⟩)
  else .error .indexError

/-- Default host value used to express in-range lookups via `getD`. -/
def dHost : Host := ⟨"", ""⟩

theorem pyGet_nat (l : List α) (i : Nat) (d : α) (h : i < l.length) :
    pyGet l (i : Int) = .ok (l.getD i d) := by
  have h0 : ¬((i : Int) < 0) := by omega
  simp [pyGet, h0, h, List.getD_eq_getElem?_getD, List.getElem?_eq_getElem h]

theorem pyGet_neg (l : List α) (k : Nat) (d : α) (hk : 0 < k)
    (h : k ≤ l.length) : pyGet l (-(k : Int)) = .ok (l.getD (l.length - k) d) := by
  have h0 : (-(k : Int) < 0) := by omega
  have ht : (-(k : Int) + l.length).toNat = l.length - k := by omega
  have hlt : l.length - k < l.length := by omega
  simp [pyGet, h0, ht, hlt, h, List.getD_eq_getElem?_getD,
    List.getElem?_eq_getElem hlt]

theorem pyGet_oob (l : List α) (i : Int) (h : (l.length : Int) ≤ i) :
    pyGet l i = .error .indexError := by
  have h0 : ¬(i < 0) := by omega
  have ht : ¬(i.toNat < l.length) := by omega
  simp [pyGet, h0, ht]

/-- Container name of the recoder on host `i`: `"recoder_on_h%d" % (i+1)`. -/
def recName (i : Nat) : String := "recoder_on_h" ++ toString (i + 1)

/-- Command line of the recoder on host `i`:
`"python3 ./recoder.py h{i+1}-s{i+1} --action {act}"`. -/
def recoderCmd (i : Nat) (act : String) : String :=
  "python3 ./recoder.py h" ++ toString (i + 1) ++ "-s" ++ toString (i + 1) ++
    " --action " ++ act

/-- Command line of the decoder: `"python3 ./decoder.py h%d-s%d" %
(len(hosts) - 1, len(hosts) - 1)`. -/
def decoderCmd (n : Nat) : String :=
  "python3 ./decoder.py h" ++ toString (n - 1) ++ "-s" ++ toString (n - 1)

/-- The deployed coder containers, by container name. -/
structure Coders where
  encoder : String
  decoder : String
  recoders : List String
deriving DecidableEq

/-- The relay-deployment loop of `deploy_coders`: for each remaining
index `i`, read `action_map[i - 2]` (note the hard-coded `2`), then
start the recoder container on `hosts[i]`.  An out-of-range subscript
raises, aborting the loop; containers started before the failure remain
in the event list. -/
def deployRelays (hosts : List Host) (action_map : List String) :
    List Nat → Except PyErr (List String) × List Ev
  | [] => (.ok [], [])
  | i :: rest =>
    match pyGet action_map ((i : Int) - 2) with
    | .error e => (.error e, [])
    | .ok act =>
      match pyGet hosts (i : Int) with
      | .error e => (.error e, [])
      | .ok h =>
        let ev := Ev.addContainer (recName i) h.name (recoderCmd i act) 3
        match deployRelays hosts action_map rest with
        | (.error e, evs) => (.error e, ev :: evs)
        | (.ok names, evs) => (.ok (recName i :: names), ev :: evs)

/-- `deploy_coders(mgr, hosts, rec_st_idx, relay_num, action_map)`:
relays on `range(rec_st_idx, rec_st_idx + relay_num)`, then
`time.sleep(relay_num)`, then the decoder on `hosts[-2]`, then the
encoder on `hosts[1]`. -/
def deploy_coders (hosts : List Host) (rec_st_idx relay_num : Nat)
    (action_map : List String) : Except PyErr Coders × List Ev :=
  match deployRelays hosts action_map (List.range' rec_st_idx relay_num) with
  | (.error e, evs) => (.error e, evs)
  | (.ok recNames, evs) =>
    match pyGet hosts (-2) with
    | .error e => (.error e, evs ++ [Ev.sleep relay_num])
    | .ok hdec =>
      let decEv := Ev.addContainer "decoder" hdec.name
        (decoderCmd hosts.length) 3
      match pyGet hosts 1 with
      | .error e => (.error e, evs ++ [Ev.sleep relay_num, decEv])
      | .ok henc =>
        let encEv := Ev.addContainer "encoder" henc.name
          "python3 ./encoder.py h2-s2" 3
        (.ok ⟨"encoder", "decoder", recNames⟩,
          evs ++ [Ev.sleep relay_num, decEv, encEv])

/-- `remove_coders(mgr, coders)`: stops the encoder, then the decoder,
then every recoder. -/
def remove_coders (coders : Coders) : List Ev :=
  Ev.removeContainer coders.encoder :: Ev.removeContainer coders.decoder ::
    coders.recoders.map Ev.removeContainer

theorem deployRelays_ok (hosts : List Host) (action_map : List String) :
    ∀ n s, 2 ≤ s → s + n ≤ hosts.length → s + n ≤ action_map.length + 2 →
      deployRelays hosts action_map (List.range' s n) =
        (.ok ((List.range' s n).map recName),
         (List.range' s n).map (fun i =>
           Ev.addContainer (recName i) ((hosts.getD i dHost).name)
             (recoderCmd i (action_map.getD (i - 2) "")) 3)) := by
  intro n
  induction n with
  | zero => intro s _ _ _; simp [deployRelays]
  | succ k ih =>
    intro s hs hh ha
    rw [List.range'_succ]
    have hcast : ((s : Int) - 2) = ((s - 2 : Nat) : Int) := by omega
    have hidx : s - 2 < action_map.length := by omega
    have hhost : s < hosts.length := by omega
    simp only [deployRelays, hcast, pyGet_nat action_map (s - 2) "" hidx,
      pyGet_nat hosts s dHost hhost,
      ih (s + 1) (by omega) (by omega) (by omega)]
    simp

theorem deployRelays_err (hosts : List Host) (action_map : List String) :
    ∀ n s, 1 ≤ n → 2 ≤ s → s + n ≤ hosts.length →
      action_map.length + 2 < s + n →
      (deployRelays hosts action_map (List.range' s n)).1 =
        .error .indexError := by
  intro n
  induction n with
  | zero => intro s h1 _ _ _; cases h1
  | succ k ih =>
    intro s _ hs hh ha
    rw [List.range'_succ]
    by_cases hoob : action_map.length ≤ s - 2
    · have : pyGet action_map ((s : Int) - 2) = .error .indexError := by
        apply pyGet_oob; omega
      simp [deployRelays, this]
    · have hidx : s - 2 < action_map.length := by omega
      have hcast : ((s : Int) - 2) = ((s - 2 : Nat) : Int) := by omega
      have hhost : s < hosts.length := by omega
      have hk : 1 ≤ k := by omega
      have hrec := ih (s + 1) hk (by omega) (by omega) (by omega)
      rcases hr : deployRelays hosts action_map (List.range' (s + 1) k) with
        ⟨res, evs⟩
      rw [hr] at hrec
      simp only at hrec
      simp [deployRelays, hcast, pyGet_nat action_map (s - 2) "" hidx,
        pyGet_nat hosts s dHost hhost, hr, hrec]

/-- C7: with the script's relay start index 2 and an action map covering
the relays, `deploy_coders` emits, in order: one recoder container per
host index in `[2, 2 + relay_num)` whose `--action` argument is the
action-map entry for that relay, then the settle sleep, then exactly one
decoder container on the second-to-last host, then exactly one encoder
container on the second host. -/
theorem deploy_order (hosts : List Host) (relay_num : Nat)
    (action_map : List String) (ham : action_map.length = relay_num)
    (hlen : 2 + relay_num ≤ hosts.length) (h2 : 2 ≤ hosts.length) :
    deploy_coders hosts 2 relay_num action_map =
      (.ok ⟨"encoder", "decoder", (List.range' 2 relay_num).map recName⟩,
       (List.range' 2 relay_num).map (fun i =>
         Ev.addContainer (recName i) ((hosts.getD i dHost).name)
           (recoderCmd i (action_map.getD (i - 2) "")) 3) ++
       [Ev.sleep relay_num,
        Ev.addContainer "decoder" ((hosts.getD (hosts.length - 2) dHost).name)
          (decoderCmd hosts.length) 3,
        Ev.addContainer "encoder" ((hosts.getD 1 dHost).name)
          "python3 ./encoder.py h2-s2" 3]) := by
  have hrel := deployRelays_ok hosts action_map relay_num 2 (by omega)
    (by omega) (by omega)
  have hdec : pyGet hosts (-2) = .ok (hosts.getD (hosts.length - 2) dHost) :=
    pyGet_neg hosts 2 dHost (by omega) h2
  have henc : pyGet hosts ((1 : Nat) : Int) = .ok (hosts.getD 1 dHost) :=
    pyGet_nat hosts 1 dHost (by omega)
  have henc' : pyGet hosts (1 : Int) = .ok (hosts.getD 1 dHost) := by
    exact_mod_cast henc
  simp [deploy_coders, hrel, hdec, henc']

/-- Witness for C7: five hosts, one relay, action map `["recode"]`. -/
theorem deploy_order_witness :
    deploy_coders ((List.range 5).map mkHost) 2 1 ["recode"] =
      (.ok ⟨"encoder", "decoder", (List.range' 2 1).map recName⟩,
       (List.range' 2 1).map (fun i =>
         Ev.addContainer (recName i)
           ((((List.range 5).map mkHost).getD i dHost).name)
           (recoderCmd i (["recode"].getD (i - 2) "")) 3) ++
       [Ev.sleep 1,
        Ev.addContainer "decoder"
          ((((List.range 5).map mkHost).getD
            (((List.range 5).map mkHost).length - 2) dHost).name)
          (decoderCmd ((List.range 5).map mkHost).length) 3,
        Ev.addContainer "encoder"
          ((((List.range 5).map mkHost).getD 1 dHost).name)
          "python3 ./encoder.py h2-s2" 3]) :=
  deploy_order ((List.range 5).map mkHost) 1 ["recode"] (by decide)
    (by decide) (by decide)

/-- C9: `deploy_coders` subscripts the action map with the hard-coded
offset `i - 2` instead of `i - rec_st_idx`; hence for every call with
`rec_st_idx ≥ 3` and `relay_num = len(action_map) ≥ 1` the subscript of
the last relay exceeds the bounds of the action map and the call raises
`IndexError` at the public interface. -/
theorem deploy_index_bug (hosts : List Host) (rec_st_idx relay_num : Nat)
    (action_map : List String) (h3 : 3 ≤ rec_st_idx)
    (ham : action_map.length = relay_num) (h1 : 1 ≤ relay_num)
    (hlen : rec_st_idx + relay_num ≤ hosts.length) :
    (deploy_coders hosts rec_st_idx relay_num action_map).1 =
      .error .indexError := by
  have herr := deployRelays_err hosts action_map relay_num rec_st_idx h1
    (by omega) hlen (by omega)
  rcases hr : deployRelays hosts action_map
      (List.range' rec_st_idx relay_num) with ⟨res, evs⟩
  rw [hr] at herr
  simp only at herr
  simp [deploy_coders, hr, herr]

/-- Witness for C9: six hosts, `rec_st_idx = 3`, a one-entry action map;
the deployment raises `IndexError`. -/
theorem deploy_index_bug_witness :
    (deploy_coders ((List.range 6).map mkHost) 3 1 ["forward"]).1 =
      .error .indexError :=
  deploy_index_bug ((List.range 6).map mkHost) 3 1 ["forward"] (by decide)
    (by decide) (by decide) (by decide)

/-- The `iperf_client_para` dict of `run_iperf_test`: defaults carry
`proto = "-u"` and the backgrounding/discarding shell suffix; the
UDP branch overwrites `proto` with `"-u"` again and clears the suffix.
`SYMBOL_SIZE` and `META_DATA_LEN` are the constants imported from the
external coding-scheme definition (`common`), kept as parameters. -/
structure IperfClientPara where
  server_ip : String
  port : Nat
  bw : String
  time : Nat
  interval : Nat
  length : String
  proto : String
  suffix : String
deriving DecidableEq

/-- Builds the client-parameter dict exactly as `run_iperf_test` does. -/
def iperf_client_para (server_ip : String) (time : Nat)
    (SYMBOL_SIZE META_DATA_LEN : Int) (proto : String) : IperfClientPara :=
  let p : IperfClientPara :=
    ⟨server_ip, 9999, "50K", time, 1, toString (SYMBOL_SIZE - META_DATA_LEN),
      "-u", "> /dev/null 2>&1 &"⟩
  if proto = "UDP" ∨ proto = "udp" then { p with proto := "-u", suffix := "" }
  else p

/-- The client command template `iperf -c {server_ip} -p {port} -t
{time} -i {interval} -b {bw} -l {length} {proto} {suffix}`. -/
def iperf_clt_cmd (p : IperfClientPara) : String :=
  "iperf -c " ++ p.server_ip ++ " -p " ++ toString p.port ++ " -t " ++
    toString p.time ++ " -i " ++ toString p.interval ++ " -b " ++ p.bw ++
    " -l " ++ p.length ++ " " ++ p.proto ++ " " ++ p.suffix

/-- The shell commands issued by `run_iperf_test`: background server on
the server host, client command on the client host, then `cat` of the
server log (the client log is only printed, not a backend call). -/
def run_iperf_test (h_clt h_srv : Host) (proto : String) (time : Nat)
    (SYMBOL_SIZE META_DATA_LEN : Int) : List Ev :=
  let p := iperf_client_para h_srv.ip time SYMBOL_SIZE META_DATA_LEN proto
  [Ev.shellCmd h_srv.name
      ("iperf -s -p 9999 -i 1 " ++ p.proto ++ " > /tmp/iperf_server.log 2>&1 &"),
   Ev.shellCmd h_clt.name (iperf_clt_cmd p),
   Ev.shellCmd h_srv.name "cat /tmp/iperf_server.log"]

/-- Shell model of capturing `h_clt.cmd(client command)`: a command
whose suffix ends in the background operator `&` detaches, so the
captured report is empty whatever the client actually printed. -/
def capturedClientOutput (p : IperfClientPara) (realOut : String) : String :=
  if p.suffix.data.getLast? = some '&' then "" else realOut

theorem u_fold (s : String) : " " ++ ("-u" ++ (" " ++ s)) = " -u " ++ s := by
  rw [← String.append_assoc, ← String.append_assoc]
  rfl

theorem clt_cmd_split (p : IperfClientPara) (hp : p.proto = "-u") :
    iperf_clt_cmd p =
      ("iperf -c " ++ p.server_ip ++ " -p " ++ toString p.port ++ " -t " ++
        toString p.time ++ " -i " ++ toString p.interval ++ " -b " ++ p.bw ++
        " -l " ++ p.length) ++ " -u " ++ p.suffix := by
  simp [iperf_clt_cmd, hp, String.append_assoc, u_fold]

/-- C8: for every invocation, the payload length handed to the iperf
client is `SYMBOL_SIZE - META_DATA_LEN`, independent of the protocol
argument. -/
theorem iperf_payload_length (server_ip : String) (time : Nat)
    (SYMBOL_SIZE META_DATA_LEN : Int) (proto : String) :
    (iperf_client_para server_ip time SYMBOL_SIZE META_DATA_LEN proto).length =
      toString (SYMBOL_SIZE - META_DATA_LEN) := by
  by_cases h : proto = "UDP" ∨ proto = "udp" <;> simp [iperf_client_para, h]

/-- C10: the client command always carries the UDP flag `-u` (the
default `proto` entry is `"-u"` and the UDP branch re-assigns `"-u"`),
and for a protocol other than `"UDP"`/`"udp"` the command keeps the
suffix `"> /dev/null 2>&1 &"`, so the client runs in the background and
its captured report is empty even when the caller asks for the client
log; for `"UDP"`/`"udp"` the suffix is cleared. -/
theorem iperf_udp_flag_and_report (ip : String) (t : Nat) (S M : Int)
    (proto realOut : String) :
    ((iperf_client_para ip t S M proto).proto = "-u") ∧
    (∃ pre, iperf_clt_cmd (iperf_client_para ip t S M proto) =
      pre ++ " -u " ++ (iperf_client_para ip t S M proto).suffix) ∧
    (¬(proto = "UDP" ∨ proto = "udp") →
      (iperf_client_para ip t S M proto).suffix = "> /dev/null 2>&1 &" ∧
      capturedClientOutput (iperf_client_para ip t S M proto) realOut = "") ∧
    ((proto = "UDP" ∨ proto = "udp") →
      (iperf_client_para ip t S M proto).suffix = "") := by
  have hp : (iperf_client_para ip t S M proto).proto = "-u" := by
    by_cases h : proto = "UDP" ∨ proto = "udp" <;> simp [iperf_client_para, h]
  refine ⟨hp, ⟨_, clt_cmd_split _ hp⟩, ?_, ?_⟩
  · intro h
    have hs : (iperf_client_para ip t S M proto).suffix =
        "> /dev/null 2>&1 &" := by
      simp [iperf_client_para, h]
    refine ⟨hs, ?_⟩
    rw [capturedClientOutput, hs]
    simp
  · intro h
    simp [iperf_client_para, h]

/-- Witness for C10 at `proto = "tcp"` (backgrounded, empty captured
report) and `proto = "udp"` (suffix cleared). -/
theorem iperf_udp_flag_and_report_witness :
    ((iperf_client_para "10.0.0.5" 30 100 8 "tcp").suffix =
        "> /dev/null 2>&1 &" ∧
      capturedClientOutput (iperf_client_para "10.0.0.5" 30 100 8 "tcp")
        "some client report" = "") ∧
    (iperf_client_para "10.0.0.5" 30 100 8 "udp").suffix = "" :=
  ⟨(iperf_udp_flag_and_report "10.0.0.5" 30 100 8 "tcp"
      "some client report").2.2.1 (by decide),
   (iperf_udp_flag_and_report "10.0.0.5" 30 100 8 "udp"
      "some client report").2.2.2 (Or.inr rfl)⟩

/-- `disable_cksum_offload(switch_num)`: one ethtool call per switch. -/
def disable_cksum_offload (switch_num : Nat) : List Ev :=
  (List.range switch_num).map (fun i =>
    Ev.cksumOff ("s" ++ toString (i + 1) ++ "-h" ++ toString (i + 1)))

/-- The action map built at sweep step `i`:
`action_map = ["forward"] * relay_num`, and when not in all-forward mode
`action_map[i] = "recode"`. -/
def build_action_map (all_forward : Bool) (relay_num i : Nat) : List String :=
  let action_map := List.replicate relay_num "forward"
  if all_forward then action_map else action_map.set i "recode"

/-- The sweep loop body of `run_multihop_nc_test` over the remaining
sweep indices: per variant it deploys the coders, sleeps 3s, runs the
iperf test between the first and last host, removes the coders and -
when in all-forward mode - breaks out of the loop.  A `None` host list
(the swallowed build failure) raises `TypeError` when `deploy_coders`
subscripts it.  Any raised exception aborts the loop. -/
def sweepLoop (hosts : Option (List Host)) (all_forward : Bool)
    (rec_st_idx relay_num : Nat) (S M : Int) :
    List Nat → Except PyErr Unit × List Ev
  | [] => (.ok (), [])
  | i :: rest =>
    let action_map := build_action_map all_forward relay_num i
    match hosts with
    | none => (.error (.typeError "NoneType object is not subscriptable"), [])
    | some hs =>
      match deploy_coders hs rec_st_idx relay_num action_map with
      | (.error e, devs) => (.error e, devs)
      | (.ok coders, devs) =>
        match pyGet hs 0 with
        | .error e => (.error e, devs ++ [Ev.sleep 3])
        | .ok h0 =>
          match pyGet hs (-1) with
          | .error e => (.error e, devs ++ [Ev.sleep 3])
          | .ok hl =>
            let cur := devs ++ [Ev.sleep 3] ++
              run_iperf_test h0 hl "udp" 30 S M ++ remove_coders coders
            if all_forward then (.ok (), cur)
            else
              match sweepLoop hosts all_forward rec_st_idx relay_num S M rest
                with
              | (res, evs2) => (res, cur ++ evs2)

/-- `run_multihop_nc_test(host_num, profile, coder_log_conf)`: disables
IPv6, builds the topology (whose internal `try` swallows backend
faults), then inside the `try` starts the network, installs the OpenFlow
rules, disables checksum offloading and - for the
`mobile_recoder_deterministic` profile (0) - runs the sweep; the
`finally` always stops the network and the manager and re-enables IPv6.
An exception raised before the `try` (the `host_num < 5` validation)
propagates to the caller. -/
def run_multihop_nc_test (faults : Nat → Bool) (ofport : String → String)
    (all_forward : Bool) (host_num profile : Nat) (S M : Int) :
    Except PyErr Unit × List Ev :=
  match create_topology faults host_num with
  | (.error e, evs) => (.error e, Ev.configIpv6 "disable" :: evs)
  | (.ok hosts, evs) =>
    let relay_num := host_num - 2 - 2
    let rec_st_idx := 2
    let bodyPre := Ev.netStart :: (add_ovs_flows_trace ofport host_num ++
      disable_cksum_offload host_num)
    match (if profile = 0 then
        sweepLoop hosts all_forward rec_st_idx relay_num S M
          (List.range relay_num)
      else (.ok (), [])) with
    | (.ok _, sevs) =>
      (.ok (), Ev.configIpv6 "disable" :: (evs ++ bodyPre ++ sevs ++
        [Ev.netStop, Ev.mgrStop, Ev.configIpv6 "enable"]))
    | (.error _, sevs) =>
      (.ok (), Ev.configIpv6 "disable" :: (evs ++ bodyPre ++ sevs ++
        [Ev.errorLog, Ev.netStop, Ev.mgrStop, Ev.configIpv6 "enable"]))

/-- C2 counterexample: at `host_num = 4` the run disables IPv6, then the
`host_num < 5` validation raises before the `try/finally` is entered, so
the exception escapes with no `net.stop()` and no IPv6 re-enable - the
run exits with IPv6 still disabled. -/
theorem cleanup_skipped_cex :
    run_multihop_nc_test noFaults (fun s => s) false 4 0 1402 2 =
      (.error (.runtimeError "Require at least 5 hosts"),
        [Ev.configIpv6 "disable"]) ∧
    Ev.netStop ∉ (run_multihop_nc_test noFaults (fun s => s) false 4 0 1402 2).2 ∧
    Ev.configIpv6 "enable" ∉
      (run_multihop_nc_test noFaults (fun s => s) false 4 0 1402 2).2 := by
  refine ⟨rfl, by decide, by decide⟩

/-- C2 amended: once the run gets past topology creation - which is
guaranteed exactly when `host_num ≥ 5`, since `create_topology` swallows
backend faults - every exit path runs the `finally` block: the trace
ends with `net.stop()`, `mgr.stop()` and the IPv6 re-enable, and no
exception reaches the caller.  (For `host_num < 5` the validation error
escapes before the `try`, leaving IPv6 disabled.) -/
theorem cleanup_on_started_runs (faults : Nat → Bool)
    (ofport : String → String) (all_forward : Bool) (host_num profile : Nat)
    (S M : Int) (h5 : 5 ≤ host_num) :
    (run_multihop_nc_test faults ofport all_forward host_num profile S M).1 =
      .ok () ∧
    ∃ l, (run_multihop_nc_test faults ofport all_forward host_num profile
        S M).2 =
      l ++ [Ev.netStop, Ev.mgrStop, Ev.configIpv6 "enable"] := by
  obtain ⟨r, hr⟩ := (create_topology_validation faults host_num).2 h5
  rcases hc : create_topology faults host_num with ⟨res, evs⟩
  rw [hc] at hr
  simp only at hr
  subst hr
  rcases hs : (if profile = 0 then
      sweepLoop r all_forward 2 (host_num - 2 - 2) S M
        (List.range (host_num - 2 - 2))
    else (.ok (), [])) with ⟨sres, sevs⟩
  cases sres with
  | ok u =>
    refine ⟨?_, ⟨Ev.configIpv6 "disable" ::
      (evs ++ (Ev.netStart :: (add_ovs_flows_trace ofport host_num ++
        disable_cksum_offload host_num)) ++ sevs), ?_⟩⟩ <;>
      simp [run_multihop_nc_test, hc, hs, List.append_assoc]
  | error e =>
    refine ⟨?_, ⟨Ev.configIpv6 "disable" ::
      (evs ++ (Ev.netStart :: (add_ovs_flows_trace ofport host_num ++
        disable_cksum_offload host_num)) ++ sevs ++ [Ev.errorLog]), ?_⟩⟩ <;>
      simp [run_multihop_nc_test, hc, hs, List.append_assoc]

/-- Witness for C2's amended statement: a fault-free all-default run at
`host_num = 5` returns normally and its trace ends with the teardown and
the IPv6 re-enable. -/
theorem cleanup_on_started_runs_witness :
    (run_multihop_nc_test noFaults (fun s => s) false 5 0 1402 2).1 =
      .ok () ∧
    ∃ l, (run_multihop_nc_test noFaults (fun s => s) false 5 0 1402 2).2 =
      l ++ [Ev.netStop, Ev.mgrStop, Ev.configIpv6 "enable"] :=
  cleanup_on_started_runs noFaults (fun s => s) false 5 0 1402 2 (by decide)

theorem buildChain_no_netStop (faults : Nat → Bool) (l : List Nat) :
    ∀ lastSw c, ((buildChain faults l lastSw c).2).countP isNetStop = 0 := by
  induction l with
  | nil => intro lastSw c; simp [buildChain]
  | cons i rest ih =>
    intro lastSw c
    by_cases h0 : faults c
    · simp [buildChain, h0]
    · cases lastSw with
      | none =>
        by_cases h1 : faults (c + 1)
        · simp [buildChain, h0, h1, isNetStop]
        · by_cases h2 : faults (c + 2)
          · simp [buildChain, h0, h1, h2, List.countP_cons, isNetStop]
          · have h3 := ih (some i) (c + 3)
            rcases hr : buildChain faults rest (some i) (c + 3) with ⟨o, evs⟩
            rw [hr] at h3
            simp only at h3
            cases o <;>
              simp [buildChain, h0, h1, h2, hr, List.countP_cons, isNetStop,
                h3]
      | some p =>
        by_cases h1 : faults (c + 1)
        · simp [buildChain, h0, h1, isNetStop]
        · by_cases h2 : faults (c + 2)
          · simp [buildChain, h0, h1, h2, List.countP_cons, isNetStop]
          · by_cases h3 : faults (c + 3)
            · simp [buildChain, h0, h1, h2, h3, List.countP_cons, isNetStop]
            · have h4 := ih (some i) (c + 4)
              rcases hr : buildChain faults rest (some i) (c + 4) with ⟨o, evs⟩
              rw [hr] at h4
              simp only at h4
              cases o <;>
                simp [buildChain, h0, h1, h2, h3, hr, List.countP_cons,
                  isNetStop, h4]

/-- When the assembly faulted (swallowed failure, `hosts = None`), the
events of `create_topology` end with the error log and a single
`net.stop()`, with no earlier `net.stop()`. -/
theorem create_fault_shape (faults : Nat → Bool) (host_num : Nat)
    (h5 : 5 ≤ host_num)
    (hok : (create_topology faults host_num).1 = .ok none) :
    ∃ evs', (create_topology faults host_num).2 =
        evs' ++ [Ev.errorLog, Ev.netStop] ∧
      evs'.countP isNetStop = 0 := by
  by_cases h0 : faults 0
  · exact ⟨[], by simp [create_topology, Nat.not_lt.mpr h5, h0], by simp⟩
  · rcases hb : buildChain faults (List.range host_num) none 1 with ⟨o, evs⟩
    cases o with
    | none =>
      refine ⟨Ev.addController "c0" :: evs, ?_, ?_⟩
      · simp [create_topology, Nat.not_lt.mpr h5, h0, hb]
      · have hnb := buildChain_no_netStop faults (List.range host_num) none 1
        rw [hb] at hnb
        simp only at hnb
        simp [List.countP_cons, isNetStop, hnb]
    | some hs =>
      exfalso
      simp [create_topology, Nat.not_lt.mpr h5, h0, hb] at hok

theorem ovsStep_no_netStop (ofport : String → String) (i : Nat) :
    (ovsStep ofport i).countP isNetStop = 0 := by
  by_cases h : i = 0 <;> simp [ovsStep, h, isNetStop]

theorem ovsTrace_no_netStop (ofport : String → String) (m : Nat) :
    (ovsTrace ofport m).countP isNetStop = 0 := by
  induction m with
  | zero => simp [ovsTrace]
  | succ k ih => simp [ovsTrace_succ, ih, ovsStep_no_netStop]

theorem cksum_no_netStop (switch_num : Nat) :
    (disable_cksum_offload switch_num).countP isNetStop = 0 := by
  simp only [disable_cksum_offload, List.countP_map]
  exact List.countP_eq_zero.mpr (by intro a _; simp [Function.comp, isNetStop])

/-- The first flush command of the flow installer is in its trace as
soon as at least two hosts exist. -/
theorem delFlows_mem_flow_trace (ofport : String → String) (host_num : Nat)
    (h : 2 ≤ host_num) :
    Ev.delFlows 1 ∈ add_ovs_flows_trace ofport host_num := by
  have h0 : 0 ∈ List.range (host_num - 1) := List.mem_range.mpr (by omega)
  exact List.mem_flatMap.mpr ⟨0, h0, by simp [ovsStep]⟩

/-- With a `None` host list every sweep iteration raises immediately, so
the sweep emits no events at all. -/
theorem sweepLoop_none (all_forward : Bool) (rec_st_idx relay_num : Nat)
    (S M : Int) (l : List Nat) :
    (sweepLoop none all_forward rec_st_idx relay_num S M l).2 = [] := by
  cases l <;> simp [sweepLoop]

/-- C1 amended: a backend error during assembly aborts the build loop
and `create_topology` itself logs it and calls `net.stop()` once - but
the error is swallowed (the function returns `None`) instead of being
re-raised as a `TopologyBuildError`.  The run then continues: it calls
`net.start()` and issues flow-programming commands, fails when the sweep
subscripts the `None` host list, and the `finally` block calls
`net.stop()` a second time.  So `net.stop()` runs twice, flow
programming does occur after the failure, and the caller sees a normal
return. -/
theorem assembly_fault_swallowed (faults : Nat → Bool)
    (ofport : String → String) (host_num : Nat) (S M : Int)
    (h5 : 5 ≤ host_num)
    (hfault : (create_topology faults host_num).1 = .ok none) :
    (run_multihop_nc_test faults ofport false host_num 0 S M).1 = .ok () ∧
    ((run_multihop_nc_test faults ofport false host_num 0 S M).2).countP
      isNetStop = 2 ∧
    ∃ l1 l2, (run_multihop_nc_test faults ofport false host_num 0 S M).2 =
        l1 ++ Ev.netStop :: l2 ∧
      l1.countP isNetStop = 0 ∧ Ev.delFlows 1 ∈ l2 := by
  rcases hc : create_topology faults host_num with ⟨res, evs⟩
  rw [hc] at hfault
  simp only at hfault
  subst hfault
  obtain ⟨evs', hevs, hcnt⟩ := create_fault_shape faults host_num h5
    (by rw [hc])
  rw [hc] at hevs
  simp only at hevs
  subst hevs
  rcases hs : sweepLoop none false 2 (host_num - 2 - 2) S M
      (List.range (host_num - 2 - 2)) with ⟨sres, sevs⟩
  have hsevs : sevs = [] := by
    have := sweepLoop_none false 2 (host_num - 2 - 2) S M
      (List.range (host_num - 2 - 2))
    rw [hs] at this
    exact this
  subst hsevs
  have hrun : (run_multihop_nc_test faults ofport false host_num 0 S M).2 =
      Ev.configIpv6 "disable" :: ((evs' ++ [Ev.errorLog, Ev.netStop]) ++
        (Ev.netStart :: (add_ovs_flows_trace ofport host_num ++
          disable_cksum_offload host_num)) ++ [] ++
        (match sres with
         | .ok _ => [Ev.netStop, Ev.mgrStop, Ev.configIpv6 "enable"]
         | .error _ =>
            [Ev.errorLog, Ev.netStop, Ev.mgrStop, Ev.configIpv6 "enable"])) := by
    cases sres <;> simp [run_multihop_nc_test, hc, hs]
  refine ⟨?_, ?_, ?_⟩
  · cases sres <;> simp [run_multihop_nc_test, hc, hs]
  · rw [hrun]
    cases sres <;>
      simp [List.countP_cons, List.countP_append, isNetStop, hcnt,
        ovsTrace_no_netStop, cksum_no_netStop, add_ovs_flows_trace]
  · cases sres with
    | ok u =>
      refine ⟨Ev.configIpv6 "disable" :: (evs' ++ [Ev.errorLog]),
        (Ev.netStart :: (add_ovs_flows_trace ofport host_num ++
          disable_cksum_offload host_num)) ++
        [Ev.netStop, Ev.mgrStop, Ev.configIpv6 "enable"], ?_, ?_, ?_⟩
      · rw [hrun]; simp
      · simp [List.countP_cons, List.countP_append, isNetStop, hcnt]
      · exact List.mem_append_left _ (List.mem_cons_of_mem _
          (List.mem_append_left _
            (delFlows_mem_flow_trace ofport host_num (by omega))))
    | error e =>
      refine ⟨Ev.configIpv6 "disable" :: (evs' ++ [Ev.errorLog]),
        (Ev.netStart :: (add_ovs_flows_trace ofport host_num ++
          disable_cksum_offload host_num)) ++
        [Ev.errorLog, Ev.netStop, Ev.mgrStop, Ev.configIpv6 "enable"],
        ?_, ?_, ?_⟩
      · rw [hrun]; simp
      · simp [List.countP_cons, List.countP_append, isNetStop, hcnt]
      · exact List.mem_append_left _ (List.mem_cons_of_mem _
          (List.mem_append_left _
            (delFlows_mem_flow_trace ofport host_num (by omega))))

/-- C1 counterexample: fault the very first assembly call
(`addController`) at `host_num = 5`.  The run returns `.ok ()` - no
`TopologyBuildError` reaches the caller - `net.stop()` appears twice in
the trace, and a flow-programming command is issued after the failure. -/
theorem assembly_fault_cex :
    (create_topology (fun k => k == 0) 5).1 = .ok none ∧
    (run_multihop_nc_test (fun k => k == 0) (fun s => s) false 5 0 1402 2).1 =
      .ok () ∧
    ((run_multihop_nc_test (fun k => k == 0) (fun s => s) false 5 0 1402
        2).2).countP isNetStop = 2 ∧
    Ev.delFlows 1 ∈
      (run_multihop_nc_test (fun k => k == 0) (fun s => s) false 5 0 1402
        2).2 :=
  ⟨rfl, rfl, by decide, by decide⟩

/-- Witness for C1's amended statement at the same concrete input. -/
theorem assembly_fault_swallowed_witness :
    (run_multihop_nc_test (fun k => k == 0) (fun s => s) false 5 0 1402
        2).1 = .ok () ∧
    ((run_multihop_nc_test (fun k => k == 0) (fun s => s) false 5 0 1402
        2).2).countP isNetStop = 2 ∧
    ∃ l1 l2, (run_multihop_nc_test (fun k => k == 0) (fun s => s) false 5 0
        1402 2).2 = l1 ++ Ev.netStop :: l2 ∧
      l1.countP isNetStop = 0 ∧ Ev.delFlows 1 ∈ l2 :=
  assembly_fault_swallowed (fun k => k == 0) (fun s => s) 5 1402 2
    (by decide) rfl

/-- Recognizer for encoder-container starts. -/
def isEncoderStart : Ev → Bool
  | .addContainer n _ _ _ => n == "encoder"
  | _ => false

theorem recName_ne_encoder (i : Nat) : recName i ≠ "encoder" := by
  intro h
  have hlen := congrArg String.length h
  rw [recName, String.length_append] at hlen
  have h1 : ("recoder_on_h" : String).length = 12 := rfl
  have h2 : ("encoder" : String).length = 7 := rfl
  omega

/-- In all-forward mode the sweep loop breaks after its first
iteration: the remaining sweep indices are never visited. -/
theorem sweepLoop_all_forward_break (hosts : Option (List Host))
    (rec_st_idx relay_num : Nat) (S M : Int) (i : Nat) (rest : List Nat) :
    sweepLoop hosts true rec_st_idx relay_num S M (i :: rest) =
      sweepLoop hosts true rec_st_idx relay_num S M [i] := by
  cases hosts with
  | none => rfl
  | some hs =>
    rcases hdep : deploy_coders hs rec_st_idx relay_num
        (build_action_map true relay_num i) with ⟨res, devs⟩
    cases res with
    | error e => simp [sweepLoop, hdep]
    | ok coders =>
      rcases hg0 : pyGet hs 0 with e | h0
      · simp [sweepLoop, hdep, hg0]
      · rcases hg1 : pyGet hs (-1) with e | hl
        · simp [sweepLoop, hdep, hg0, hg1]
        · simp [sweepLoop, hdep, hg0, hg1]

/-- C6: (1) the action map of sweep step `k` (all-forward off) holds
`"recode"` exactly at position `k` and `"forward"` everywhere else;
(2) in all-forward mode every entry is `"forward"` - `"recode"` is never
emitted; (3) in all-forward mode the sweep loop exits after its first
iteration regardless of the remaining indices; and (4) for every
`host_num ≥ 5` (so `relay_num = host_num - 4 ≥ 1`) the all-forward sweep
over the canonical host list starts exactly one encoder, i.e. executes
exactly one variant. -/
theorem sweep_action_maps :
    (∀ relay_num k j : Nat, k < relay_num → j < relay_num →
      (build_action_map false relay_num k)[j]? =
        some (if j = k then "recode" else "forward")) ∧
    (∀ relay_num k : Nat, ∀ s ∈ build_action_map true relay_num k,
      s = "forward") ∧
    (∀ (hosts : Option (List Host)) (rec_st_idx relay_num : Nat)
      (S M : Int) (i : Nat) (rest : List Nat),
      sweepLoop hosts true rec_st_idx relay_num S M (i :: rest) =
        sweepLoop hosts true rec_st_idx relay_num S M [i]) ∧
    (∀ (host_num : Nat) (S M : Int), 5 ≤ host_num →
      ((sweepLoop (some ((List.range host_num).map mkHost)) true 2
          (host_num - 2 - 2) S M (List.range (host_num - 2 - 2))).2).countP
        isEncoderStart = 1) := by
  refine ⟨?_, ?_, sweepLoop_all_forward_break, ?_⟩
  · intro relay_num k j hk hj
    by_cases h : j = k
    · subst h
      simp [build_action_map, List.getElem?_set, List.length_replicate, hj]
    · simp [build_action_map, List.getElem?_set, Ne.symm h,
        List.getElem?_replicate, hj, h]
  · intro relay_num k s hs
    have h2 : ¬relay_num = 0 ∧ s = "forward" := by
      simpa [build_action_map, List.mem_replicate] using hs
    exact h2.2
  · intro host_num S M h5
    obtain ⟨m, hm⟩ : ∃ m, host_num - 2 - 2 = m + 1 := ⟨host_num - 5, by omega⟩
    rw [hm, List.range_succ_eq_map,
      sweepLoop_all_forward_break _ _ _ _ _ 0 _]
    set hs := (List.range host_num).map mkHost with hhs
    have hlen : hs.length = host_num := by simp [hhs]
    have ham : (build_action_map true (m + 1) 0).length = m + 1 := by
      simp [build_action_map]
    have hdep := deploy_order hs (m + 1) (build_action_map true (m + 1) 0)
      ham (by omega) (by omega)
    have hg0 : pyGet hs (0 : Int) = .ok (hs.getD 0 dHost) := by
      have := pyGet_nat hs 0 dHost (by omega)
      exact_mod_cast this
    have hg1 : pyGet hs (-1 : Int) = .ok (hs.getD (hs.length - 1) dHost) := by
      have := pyGet_neg hs 1 dHost (by omega) (by omega)
      exact_mod_cast this
    rw [sweepLoop, hdep, hg0, hg1]
    simp only [if_pos rfl]
    simp [List.countP_append, List.countP_cons, isEncoderStart,
      run_iperf_test, remove_coders, List.countP_map]
    have hz1 : List.countP (isEncoderStart ∘ fun i =>
        Ev.addContainer (recName i) (hs[i]?.getD dHost).name
          (recoderCmd i ((build_action_map true (m + 1) 0)[i - 2]?.getD ""))
          3) (List.range' 2 (m + 1)) = 0 :=
      List.countP_eq_zero.mpr (by
        intro i hi
        simp [Function.comp, isEncoderStart, recName_ne_encoder i])
    have hz2 : List.countP (isEncoderStart ∘ Ev.removeContainer ∘ recName)
        (List.range' 2 (m + 1)) = 0 :=
      List.countP_eq_zero.mpr (by
        intro i hi
        simp [Function.comp, isEncoderStart])
    omega

/-- Witness for C6: at `host_num = 7` (`relay_num = 3`), position facts
of the step-1 action map, the all-forward map entry, a concrete
loop-break instance and the exactly-one-encoder count. -/
theorem sweep_action_maps_witness :
    (build_action_map false 3 1)[1]? = some "recode" ∧
    (build_action_map false 3 1)[0]? = some "forward" ∧
    (∀ s ∈ build_action_map true 3 0, s = "forward") ∧
    sweepLoop (some ((List.range 7).map mkHost)) true 2 3 1402 2 [0, 1, 2] =
      sweepLoop (some ((List.range 7).map mkHost)) true 2 3 1402 2 [0] ∧
    ((sweepLoop (some ((List.range 7).map mkHost)) true 2
        (7 - 2 - 2) 1402 2 (List.range (7 - 2 - 2))).2).countP
      isEncoderStart = 1 := by
  refine ⟨?_, ?_, sweep_action_maps.2.1 3 0,
    sweep_action_maps.2.2.1 (some ((List.range 7).map mkHost)) 2 3 1402 2 1
      [2],
    sweep_action_maps.2.2.2 7 1402 2 (by decide)⟩
  · simpa using sweep_action_maps.1 3 1 1 (by decide) (by decide)
  · simpa using sweep_action_maps.1 3 1 0 (by decide) (by decide)

end Multihop
